import Mathlib

/-!
Verification development for the cache_policy reconciliation handler
(src/cache_policy/lambda_function.py).

The handler is embedded shallowly: Python dictionaries with string keys and
values become association lists, the global `ExtensionHandler` accumulator
becomes an explicit `EH` record threaded through every operation, remote
boto3 calls become abstract outcome values supplied as inputs, and Python
exceptions become an explicit `Except` error channel carrying the handler
state at the moment the exception was raised.
-/

namespace CachePolicy

/-! ### Tag mappings

A Python dict with string keys and string values is embedded as an
association list; lookup takes the first binding, so a list without duplicate
keys models a dict exactly. -/

abbrev Tags := List (String × String)

/-- `m.get(k)` on a Python dict: the first binding of `k`, if any. -/
def tagsGet (m : Tags) (k : String) : Option String :=
  (m.find? (fun p => p.1 == k)).map (fun p => p.2)

/-- `list(m.keys())` on a Python dict. -/
def tagsKeys (m : Tags) : List String := m.map (fun p => p.1)

/-- `k in m` on a Python dict. -/
def tagsHasKey (m : Tags) (k : String) : Bool := (tagsGet m k).isSome

theorem tagsGet_cons_eq (hd : String × String) (tl : Tags) (k : String) (h : hd.1 = k) :
    tagsGet (hd :: tl) k = some hd.2 := by
  simp [tagsGet, List.find?, h]

theorem tagsGet_cons_ne (hd : String × String) (tl : Tags) (k : String) (h : hd.1 ≠ k) :
    tagsGet (hd :: tl) k = tagsGet tl k := by
  have hb : (hd.1 == k) = false := by simpa using h
  simp [tagsGet, List.find?, hb]

theorem tagsGet_isSome_iff_mem_keys (m : Tags) (k : String) :
    (tagsGet m k).isSome = true ↔ k ∈ tagsKeys m := by
  induction m with
  | nil => simp [tagsGet, tagsKeys]
  | cons hd tl ih =>
    by_cases h : hd.1 = k
    · simp [tagsGet_cons_eq hd tl k h, tagsKeys, h]
    · rw [tagsGet_cons_ne hd tl k h]
      simp only [tagsKeys, List.map_cons, List.mem_cons]
      rw [ih]
      constructor
      · exact fun h2 => Or.inr h2
      · rintro (h2 | h2)
        · exact absurd h2.symm h
        · exact h2

theorem tagsGet_filter_keyPred (m : Tags) (q : String → Bool) (k : String) :
    tagsGet (m.filter (fun p => q p.1)) k = if q k then tagsGet m k else none := by
  induction m with
  | nil => simp [tagsGet]
  | cons hd tl ih =>
    by_cases hEq : hd.1 = k
    · subst hEq
      cases hq : q hd.1
      · simp [List.filter_cons, hq, ih]
      · simp [List.filter_cons, hq, tagsGet_cons_eq hd _ hd.1 rfl, tagsGet_cons_eq hd tl hd.1 rfl]
    · cases hq : q hd.1
      · rw [List.filter_cons]
        simp only [hq, Bool.false_eq_true, if_false]
        rw [ih, tagsGet_cons_ne hd tl k hEq]
      · rw [List.filter_cons]
        simp only [hq, if_true]
        rw [tagsGet_cons_ne hd _ k hEq, ih, tagsGet_cons_ne hd tl k hEq]

theorem tagsGet_eq_none_of_not_mem (m : Tags) (k : String)
    (h : k ∉ tagsKeys m) : tagsGet m k = none := by
  cases hg : tagsGet m k with
  | none => rfl
  | some v =>
    exact absurd ((tagsGet_isSome_iff_mem_keys m k).mp (by simp [hg])) h

theorem tagsGet_append (m1 m2 : Tags) (k : String) :
    tagsGet (m1 ++ m2) k =
      match tagsGet m1 k with
      | some v => some v
      | none => tagsGet m2 k := by
  induction m1 with
  | nil => simp [tagsGet]
  | cons hd tl ih =>
    by_cases h : hd.1 = k
    · rw [List.cons_append, tagsGet_cons_eq hd _ k h, tagsGet_cons_eq hd tl k h]
    · rw [List.cons_append, tagsGet_cons_ne hd _ k h, tagsGet_cons_ne hd tl k h, ih]

theorem tagsGet_filter_nodup (m : Tags) (p : String × String → Bool) (k : String)
    (hnd : (tagsKeys m).Nodup) :
    tagsGet (m.filter p) k =
      match tagsGet m k with
      | some v => if p (k, v) then some v else none
      | none => none := by
  induction m with
  | nil => simp [tagsGet]
  | cons hd tl ih =>
    simp only [tagsKeys, List.map_cons, List.nodup_cons] at hnd
    have ihr := ih hnd.2
    by_cases hEq : hd.1 = k
    · have hknotl : k ∉ tagsKeys tl := hEq ▸ hnd.1
      have htl : tagsGet tl k = none := tagsGet_eq_none_of_not_mem tl k hknotl
      have htlf : tagsGet (tl.filter p) k = none := by
        rw [ihr, htl]
      have hpair : (k, hd.2) = hd := by
        rw [← hEq]
      cases hp : p hd
      · rw [List.filter_cons]
        simp only [hp, Bool.false_eq_true, if_false]
        rw [htlf, tagsGet_cons_eq hd tl k hEq]
        simp [hpair, hp]
      · rw [List.filter_cons]
        simp only [hp, if_true]
        rw [tagsGet_cons_eq hd _ k hEq, tagsGet_cons_eq hd tl k hEq]
        simp [hpair, hp]
    · cases hp : p hd
      · rw [List.filter_cons]
        simp only [hp, Bool.false_eq_true, if_false]
        rw [ihr, tagsGet_cons_ne hd tl k hEq]
      · rw [List.filter_cons]
        simp only [hp, if_true]
        rw [tagsGet_cons_ne hd _ k hEq, ihr, tagsGet_cons_ne hd tl k hEq]

/-- Modelled from the spec: the helper `key_value_list_obj_to_compressed_dict`
is referenced by lambda_function.py (lines 251, 258, 332, 339) but is not
defined under src/.  The adjacent source comment documents it as the dict
comprehension `{item.get("Key"): item.get("Value") for item in ...}`, so a
later duplicate key overrides an earlier one and the result has no duplicate
keys. -/
def key_value_list_obj_to_compressed_dict : List (String × String) → Tags
  | [] => []
  | (k, v) :: rest =>
    let r := key_value_list_obj_to_compressed_dict rest
    if tagsHasKey r k then r else (k, v) :: r

theorem tagsHasKey_iff_mem_keys (m : Tags) (k : String) :
    tagsHasKey m k = true ↔ k ∈ tagsKeys m := tagsGet_isSome_iff_mem_keys m k

theorem keys_compress_nodup (l : List (String × String)) :
    (tagsKeys (key_value_list_obj_to_compressed_dict l)).Nodup := by
  induction l with
  | nil => simp [key_value_list_obj_to_compressed_dict, tagsKeys]
  | cons hd tl ih =>
    obtain ⟨k, v⟩ := hd
    rw [key_value_list_obj_to_compressed_dict]
    cases h : tagsHasKey (key_value_list_obj_to_compressed_dict tl) k
    · simp only [h, Bool.false_eq_true, if_false]
      have hnm : k ∉ tagsKeys (key_value_list_obj_to_compressed_dict tl) := by
        intro hmem
        rw [(tagsHasKey_iff_mem_keys _ _).mpr hmem] at h
        exact absurd h (by simp)
      rw [tagsKeys, List.map_cons, List.nodup_cons]
      exact ⟨hnm, ih⟩
    · simpa [h] using ih

theorem compress_ne_nil (l : List (String × String)) (h : l ≠ []) :
    key_value_list_obj_to_compressed_dict l ≠ [] := by
  match l with
  | [] => exact absurd rfl h
  | (k, v) :: rest =>
    rw [key_value_list_obj_to_compressed_dict]
    cases hk : tagsHasKey (key_value_list_obj_to_compressed_dict rest) k
    · simp
    · simp only [hk, if_true]
      intro hnil
      rw [hnil] at hk
      simp [tagsHasKey, tagsGet] at hk

theorem tagsGet_of_mem_nodup (m : Tags) (k : String) (v : String)
    (hnd : (tagsKeys m).Nodup) (hmem : (k, v) ∈ m) : tagsGet m k = some v := by
  induction m with
  | nil => simp at hmem
  | cons hd tl ih =>
    simp only [tagsKeys, List.map_cons, List.nodup_cons] at hnd
    rcases List.mem_cons.mp hmem with h | h
    · rw [← h]
      exact tagsGet_cons_eq (k, v) tl k rfl
    · have hk : k ∈ tagsKeys tl := by
        simpa [tagsKeys] using List.mem_map_of_mem Prod.fst h
      have hne : hd.1 ≠ k := fun hEq => hnd.1 (hEq ▸ hk)
      rw [tagsGet_cons_ne hd tl k hne]
      exact ih hnd.2 h

/-- Python `==` on dicts: the two mappings agree on every key of either. -/
def tagsEqv (m1 m2 : Tags) : Bool :=
  (tagsKeys m1 ++ tagsKeys m2).all (fun k => tagsGet m1 k == tagsGet m2 k)

/-- `remove_tags = [k for k in current_tags.keys() if k not in formatted_tags]`
(lambda_function.py lines 262 and 343). -/
def remove_tags_calc (formatted_tags current_tags : Tags) : List String :=
  (tagsKeys current_tags).filter (fun k => !(tagsHasKey formatted_tags k))

/-- `add_tags = {k:v for k,v in formatted_tags.items() if v != current_tags.get(k)}`
(lambda_function.py lines 263 and 344). -/
def add_tags_calc (formatted_tags current_tags : Tags) : Tags :=
  formatted_tags.filter (fun p => !(tagsGet current_tags p.1 == some p.2))

theorem tagsEqv_get (m1 m2 : Tags) (h : tagsEqv m1 m2 = true) (k : String) :
    tagsGet m1 k = tagsGet m2 k := by
  have hall := List.all_eq_true.mp h
  by_cases h1 : k ∈ tagsKeys m1
  · simpa using hall k (List.mem_append.mpr (Or.inl h1))
  · by_cases h2 : k ∈ tagsKeys m2
    · simpa using hall k (List.mem_append.mpr (Or.inr h2))
    · rw [tagsGet_eq_none_of_not_mem m1 k h1, tagsGet_eq_none_of_not_mem m2 k h2]

theorem diffs_empty_of_eqv (m1 m2 : Tags) (hnd : (tagsKeys m1).Nodup)
    (h : tagsEqv m1 m2 = true) :
    remove_tags_calc m1 m2 = [] ∧ add_tags_calc m1 m2 = [] := by
  constructor
  · rw [remove_tags_calc, List.filter_eq_nil_iff]
    intro k hk
    have h2 : (tagsGet m2 k).isSome = true := (tagsGet_isSome_iff_mem_keys m2 k).mpr hk
    have h1 : (tagsGet m1 k).isSome = true := by rw [tagsEqv_get m1 m2 h k]; exact h2
    simp [tagsHasKey, h1]
  · rw [add_tags_calc, List.filter_eq_nil_iff]
    intro p hp
    have h1 : tagsGet m1 p.1 = some p.2 := tagsGet_of_mem_nodup m1 p.1 p.2 hnd hp
    have h2 : tagsGet m2 p.1 = some p.2 := by rw [← tagsEqv_get m1 m2 h p.1]; exact h1
    simp [h2]

/-- A tag operation entered into the queue by `eh.add_op`, with the parameter
the source attaches to it. -/
inductive TagOp
  | removeTags (ks : List String)
  | setTags (ts : Tags)
deriving Repr, DecidableEq

/-- The tag-reconciliation block of lambda_function.py (lines 254-271,
repeated verbatim at lines 335-352): from the raw desired tag list
(`attributes.get("Tags")`, empty when absent or falsy) and the raw observed
tag list parsed out of `describe_tags`, decide which `remove_tags` /
`set_tags` operations are queued, in queue order. -/
def tag_reconcile_ops (desired observedRaw : List (String × String)) : List TagOp :=
  let current_tags := key_value_list_obj_to_compressed_dict observedRaw
  if desired.isEmpty then
    if current_tags.isEmpty then [] else [TagOp.removeTags (tagsKeys current_tags)]
  else
    let formatted_tags := key_value_list_obj_to_compressed_dict desired
    if tagsEqv formatted_tags current_tags then []
    else
      let remove_tags := remove_tags_calc formatted_tags current_tags
      let add_tags := add_tags_calc formatted_tags current_tags
      (if remove_tags.isEmpty then [] else [TagOp.removeTags remove_tags]) ++
      (if add_tags.isEmpty then [] else [TagOp.setTags add_tags])

/-- Claim C3: for every desired and observed tag mapping, the queued tag
operations are exactly `remove_tags(toRemove)` when `toRemove` — the observed
keys absent from the desired mapping — is non-empty, followed by
`set_tags(toAdd)` when `toAdd` — the desired key/value pairs whose value
differs from the observed value for that key — is non-empty; and an empty
desired mapping with a non-empty observed mapping queues removal of every
observed key. -/
theorem claim_C3_tag_reconciliation (d o : List (String × String)) :
    (tag_reconcile_ops d o =
      (if (remove_tags_calc (key_value_list_obj_to_compressed_dict d)
            (key_value_list_obj_to_compressed_dict o)).isEmpty then []
       else [TagOp.removeTags (remove_tags_calc (key_value_list_obj_to_compressed_dict d)
            (key_value_list_obj_to_compressed_dict o))]) ++
      (if (add_tags_calc (key_value_list_obj_to_compressed_dict d)
            (key_value_list_obj_to_compressed_dict o)).isEmpty then []
       else [TagOp.setTags (add_tags_calc (key_value_list_obj_to_compressed_dict d)
            (key_value_list_obj_to_compressed_dict o))]))
    ∧ (d = [] → o ≠ [] →
        tag_reconcile_ops d o =
          [TagOp.removeTags (tagsKeys (key_value_list_obj_to_compressed_dict o))]) := by
  have hremnil : ∀ m : Tags, remove_tags_calc [] m = tagsKeys m := by
    intro m
    rw [remove_tags_calc]
    apply List.filter_eq_self.mpr
    intro k _
    simp [tagsHasKey, tagsGet]
  have hmain : tag_reconcile_ops d o =
      (if (remove_tags_calc (key_value_list_obj_to_compressed_dict d)
            (key_value_list_obj_to_compressed_dict o)).isEmpty then []
       else [TagOp.removeTags (remove_tags_calc (key_value_list_obj_to_compressed_dict d)
            (key_value_list_obj_to_compressed_dict o))]) ++
      (if (add_tags_calc (key_value_list_obj_to_compressed_dict d)
            (key_value_list_obj_to_compressed_dict o)).isEmpty then []
       else [TagOp.setTags (add_tags_calc (key_value_list_obj_to_compressed_dict d)
            (key_value_list_obj_to_compressed_dict o))]) := by
    cases hd : d.isEmpty
    · cases heq : tagsEqv (key_value_list_obj_to_compressed_dict d)
          (key_value_list_obj_to_compressed_dict o)
      · simp [tag_reconcile_ops, hd, heq]
      · have hboth := diffs_empty_of_eqv _ _ (keys_compress_nodup d) heq
        simp [tag_reconcile_ops, hd, heq, hboth.1, hboth.2]
    · have hdnil : d = [] := by simpa using hd
      subst hdnil
      have hD : key_value_list_obj_to_compressed_dict ([] : List (String × String)) = ([] : Tags) := rfl
      rw [tag_reconcile_ops]
      simp only [hD, hremnil]
      have hadd : add_tags_calc ([] : Tags) (key_value_list_obj_to_compressed_dict o) = [] := rfl
      rw [hadd]
      cases ho : (key_value_list_obj_to_compressed_dict o).isEmpty
      · have honil : key_value_list_obj_to_compressed_dict o ≠ [] := by
          intro h2
          rw [h2] at ho
          simp at ho
        have hkeys : (tagsKeys (key_value_list_obj_to_compressed_dict o)).isEmpty = false := by
          cases h2 : key_value_list_obj_to_compressed_dict o with
          | nil => exact absurd h2 honil
          | cons a t => simp [tagsKeys, h2]
        simp [ho, hkeys]
      · have : key_value_list_obj_to_compressed_dict o = [] := by simpa using ho
        simp [this, tagsKeys]
  refine ⟨hmain, ?_⟩
  intro hdnil honil
  subst hdnil
  have honil2 : key_value_list_obj_to_compressed_dict o ≠ [] := compress_ne_nil o honil
  have hkeys : (tagsKeys (key_value_list_obj_to_compressed_dict o)).isEmpty = false := by
    cases h2 : key_value_list_obj_to_compressed_dict o with
    | nil => exact absurd h2 honil2
    | cons a t => simp [tagsKeys, h2]
  have hD : key_value_list_obj_to_compressed_dict ([] : List (String × String)) = ([] : Tags) := rfl
  rw [hmain]
  simp only [hD, hremnil]
  have hadd : add_tags_calc ([] : Tags) (key_value_list_obj_to_compressed_dict o) = [] := rfl
  rw [hadd]
  simp [hkeys]

/-- A key of the observed mapping survives the application of a tag diff when
it is neither removed nor overridden. -/
def applyKeep (toRemove : List String) (toAdd : Tags) (k : String) : Bool :=
  !(toRemove.contains k) && !(tagsHasKey toAdd k)

/-- The observed tag mapping after the provider has executed
`remove_tags(toRemove)` and `set_tags(toAdd)`: added pairs override, removed
keys vanish, everything else is kept. -/
def applyTagOps (observed : Tags) (toRemove : List String) (toAdd : Tags) : Tags :=
  toAdd ++ observed.filter (fun p => applyKeep toRemove toAdd p.1)

/-- Claim C6: tag reconciliation is idempotent — applying the first
reconciliation's `toRemove` and `toAdd` to the observed mapping and then
recomputing the diff of the desired mapping against the result yields an
empty `toRemove` and an empty `toAdd`. -/
theorem claim_C6_tag_reconciliation_idempotent (d o : List (String × String)) :
    remove_tags_calc (key_value_list_obj_to_compressed_dict d)
      (applyTagOps (key_value_list_obj_to_compressed_dict o)
        (remove_tags_calc (key_value_list_obj_to_compressed_dict d)
          (key_value_list_obj_to_compressed_dict o))
        (add_tags_calc (key_value_list_obj_to_compressed_dict d)
          (key_value_list_obj_to_compressed_dict o))) = [] ∧
    add_tags_calc (key_value_list_obj_to_compressed_dict d)
      (applyTagOps (key_value_list_obj_to_compressed_dict o)
        (remove_tags_calc (key_value_list_obj_to_compressed_dict d)
          (key_value_list_obj_to_compressed_dict o))
        (add_tags_calc (key_value_list_obj_to_compressed_dict d)
          (key_value_list_obj_to_compressed_dict o))) = [] := by
  set D := key_value_list_obj_to_compressed_dict d with hDdef
  set O := key_value_list_obj_to_compressed_dict o with hOdef
  have hndD : (tagsKeys D).Nodup := keys_compress_nodup d
  set r := remove_tags_calc D O with hrdef
  set a := add_tags_calc D O with hadef
  have hmemr : ∀ k, k ∈ r ↔ (k ∈ tagsKeys O ∧ tagsHasKey D k = false) := by
    intro k
    rw [hrdef, remove_tags_calc, List.mem_filter]
    simp
  have hgeta : ∀ k, tagsGet a k =
      match tagsGet D k with
      | some v => if tagsGet O k == some v then none else some v
      | none => none := by
    intro k
    rw [hadef, add_tags_calc, tagsGet_filter_nodup D _ k hndD]
    cases hDk : tagsGet D k with
    | none => rfl
    | some v =>
      cases hb : (tagsGet O k == some v)
      · simp [hb]
      · simp [hb]
  constructor
  · rw [remove_tags_calc, List.filter_eq_nil_iff]
    intro k hk
    have hDk : tagsHasKey D k = true := by
      rw [applyTagOps, tagsKeys, List.map_append, List.mem_append] at hk
      rcases hk with hk | hk
      · have : (tagsGet a k).isSome = true := (tagsGet_isSome_iff_mem_keys a k).mpr hk
        rw [hgeta k] at this
        cases hDk : tagsGet D k with
        | none => rw [hDk] at this; simp at this
        | some v => simp [tagsHasKey, hDk]
      · rcases List.mem_map.mp hk with ⟨p, hpmem, hpk⟩
        rcases List.mem_filter.mp hpmem with ⟨hpO, hpkeep⟩
        rw [applyKeep, Bool.and_eq_true] at hpkeep
        have hnr : p.1 ∉ r := by
          intro hin
          have : r.contains p.1 = true := by simpa using hin
          rw [this] at hpkeep
          simp at hpkeep
        have hpkeys : p.1 ∈ tagsKeys O := by
          simpa [tagsKeys] using List.mem_map_of_mem Prod.fst hpO
        have hcon : ¬ (p.1 ∈ tagsKeys O ∧ tagsHasKey D p.1 = false) :=
          fun hc => hnr ((hmemr p.1).mpr hc)
        rw [← hpk]
        cases h2 : tagsHasKey D p.1
        · exact absurd ⟨hpkeys, h2⟩ hcon
        · rfl
    simp [hDk]
  · rw [add_tags_calc, List.filter_eq_nil_iff]
    intro p hp
    have hDp : tagsGet D p.1 = some p.2 := tagsGet_of_mem_nodup D p.1 p.2 hndD hp
    have hget : tagsGet (applyTagOps O r a) p.1 = some p.2 := by
      rw [applyTagOps, tagsGet_append]
      cases hb : (tagsGet O p.1 == some p.2)
      · have hak : tagsGet a p.1 = some p.2 := by
          rw [hgeta p.1, hDp]
          simp [hb]
        rw [hak]
      · have hOv : tagsGet O p.1 = some p.2 := by simpa using hb
        have hak : tagsGet a p.1 = none := by
          rw [hgeta p.1, hDp]
          simp [hb]
        rw [hak]
        have hnr : p.1 ∉ r := by
          intro hin
          have := (hmemr p.1).mp hin
          rw [tagsHasKey, hDp] at this
          simp at this
        have hcontains : r.contains p.1 = false := by simpa using hnr
        have hhk : tagsHasKey a p.1 = false := by rw [tagsHasKey, hak]; rfl
        have hkeep : applyKeep r a p.1 = true := by
          rw [applyKeep, hcontains, hhk]
          rfl
        rw [tagsGet_filter_keyPred O (applyKeep r a) p.1, hkeep]
        simp [hOv]
    simp [hget]

/-! ### The extension handler, operation queue and executor

`ExtensionHandler` (`eh`), the `@ext` decorator and `handle_common_errors`
come from the `extutil` module, which is not part of src/; their behaviour is
modelled from the spec (sections 2, 4.2, 4.3, 4.4, 6) and from the handler
file's own docstring (lambda_function.py lines 25-48). -/

/-- A parameter attached to a queued operation by `eh.add_op`. -/
inductive OpParam
  | noParam
  | keys (ks : List String)
  | tags (ts : Tags)
deriving Repr, DecidableEq

/-- A remote API call actually issued during an invocation, with the identity
argument it was given.  Recorded so theorems can state which calls executed. -/
inductive RemoteCall
  | lookup (id : String)
  | create
  | update (id : String)
  | delete (id : String)
deriving Repr, DecidableEq

/-- Modelled from the spec: the `ExtensionHandler` accumulator from `extutil`.
`ops` is the operation queue, `state` the scratch state, `props`/`links` the
accumulated outputs, `retries` the pending retry marker set by
`eh.retry_error`, `fatal` the permanent error set by `eh.perm_error`, and
`declared` the override set by `eh.declare_return`.  `calls` and `trace` are
ghost instrumentation recording the remote calls made and the operation
bodies entered. -/
structure EH where
  ops : List (String × OpParam) := []
  state : List (String × String) := []
  props : List (String × String) := []
  links : List (String × String) := []
  logs : List String := []
  retries : Option (String × Nat) := none
  fatal : Option (String × Nat) := none
  declared : Option (Nat × String) := none
  calls : List RemoteCall := []
  trace : List String := []
deriving Repr, DecidableEq

def EH.hasOp (eh : EH) (n : String) : Bool := eh.ops.any (fun o => o.1 == n)

/-- Modelled from the spec: `eh.add_op` enters an operation into the queue;
an operation already present is not re-entered (spec: "an operation name
present in the queue executes at most once per logical deployment attempt"). -/
def EH.add_op (eh : EH) (n : String) (p : OpParam) : EH :=
  if eh.hasOp n then eh else { eh with ops := eh.ops ++ [(n, p)] }

/-- Modelled from the spec: an operation is removed from the queue only on
success (spec 4.2). -/
def EH.removeOp (eh : EH) (n : String) : EH :=
  { eh with ops := eh.ops.filter (fun o => o.1 != n) }

/-- New keys overwrite old ones (docstring: "takes a dictionary, merges
existing with new"). -/
def assocMerge (old new : List (String × String)) : List (String × String) :=
  new ++ old.filter (fun p => !(new.any (fun q => q.1 == p.1)))

def EH.add_state (eh : EH) (kvs : List (String × String)) : EH :=
  { eh with state := assocMerge eh.state kvs }

def EH.add_props (eh : EH) (kvs : List (String × String)) : EH :=
  { eh with props := assocMerge eh.props kvs }

def EH.add_links (eh : EH) (kvs : List (String × String)) : EH :=
  { eh with links := assocMerge eh.links kvs }

def EH.add_log (eh : EH) (m : String) : EH :=
  { eh with logs := eh.logs ++ [m] }

/-- Modelled from the spec: `eh.retry_error` records a retry marker keyed by
an error identifier and the progress to report (docstring line 30, spec 4.3
"Transient"). -/
def EH.retry_error (eh : EH) (errId : String) (progress : Nat) : EH :=
  { eh with retries := some (errId, progress) }

/-- Modelled from the spec: `eh.perm_error` permanently fails the deployment
with a user-facing message and a progress value (docstring line 35, spec 4.3
"Permanent"). -/
def EH.perm_error (eh : EH) (msg : String) (progress : Nat) : EH :=
  { eh with fatal := some (msg, progress) }

/-- Modelled from the spec: `eh.declare_return(200, progress, error_code=c)`
fixes the response's progress and error code (used by the top-level handler). -/
def EH.declare_return (eh : EH) (progress : Nat) (errorCode : String) : EH :=
  { eh with declared := some (progress, errorCode) }

def EH.recordCall (eh : EH) (c : RemoteCall) : EH :=
  { eh with calls := eh.calls ++ [c] }

/-- The serialized queue and scratch state returned to the orchestrator so a
retried invocation resumes exactly where the prior one stopped (spec 6). -/
structure PassBack where
  ops : List (String × OpParam)
  state : List (String × String)
deriving Repr, DecidableEq

/-- The invocation output consumed by the orchestrator (spec 6). -/
structure Response where
  progress : Nat
  props : List (String × String)
  links : List (String × String)
  errorCode : Option String
  passBack : Option PassBack
deriving Repr, DecidableEq

/-- Modelled from the spec: `eh.finish` assembles the response (spec 4.4):
progress defaults to 100 only when no error occurred and nothing is pending;
a pending retry reports partial progress plus the pass-back payload; a
permanent error reports its message and partial progress and no pass-back. -/
def EH.finish (eh : EH) : Response :=
  match eh.declared with
  | some (p, c) =>
    { progress := p, props := eh.props, links := eh.links, errorCode := some c, passBack := none }
  | none =>
    match eh.fatal with
    | some (m, p) =>
      { progress := p, props := eh.props, links := eh.links, errorCode := some m, passBack := none }
    | none =>
      match eh.retries with
      | some (_, p) =>
        { progress := p, props := eh.props, links := eh.links, errorCode := none,
          passBack := some ⟨eh.ops, eh.state⟩ }
      | none =>
        { progress := 100, props := eh.props, links := eh.links, errorCode := none,
          passBack := none }

/-- A Python exception escaping an operation body. -/
inductive PyErr
  | nameError (n : String)
  | keyError (k : String)
deriving Repr, DecidableEq

/-- `str(e)` for the exceptions we model (quotes elided). -/
def PyErr.str : PyErr → String
  | .nameError n => "name " ++ n ++ " is not defined"
  | .keyError k => "KeyError: " ++ k

/-- A computation step: either a new handler state, or an escaped exception
together with the handler state at the moment it was raised (the Python `eh`
is a global object, so mutations made before the exception survive it). -/
abbrev Step := Except (EH × PyErr) EH

/-- Modelled from the spec: the `@ext` decorator runs the wrapped operation
body only when its operation name is in the queue and no retry is already
declared (docstring line 33) and the deployment has not permanently failed
(spec 4.3: no further operations execute after a permanent error); the
operation is removed from the queue only when the body finishes without
declaring a retry or a permanent error (spec 4.2). -/
def runExt (n : String) (body : EH → Step) (eh : EH) : Step :=
  if eh.hasOp n && eh.retries.isNone && eh.fatal.isNone then
    match body { eh with trace := eh.trace ++ [n] } with
    | .error x => .error x
    | .ok ehAfter =>
      .ok (if ehAfter.retries.isNone && ehAfter.fatal.isNone then ehAfter.removeOp n else ehAfter)
  else .ok eh

/-- Modelled from the spec: `handle_common_errors` from `extutil` classifies a
generic ClientError: codes in a fixed permanent set abort the deployment with
the provider message, anything else schedules a retry keyed by the error code
(spec 4.3, 7). -/
def isPermanentCommonCode (code : String) : Bool :=
  code == "InvalidParameterValue" || code == "ValidationError" || code == "AccessDeniedCreate"

def handle_common_errors (code msg : String) (progress : Nat) (eh : EH) : EH :=
  if isPermanentCommonCode code then eh.perm_error msg progress
  else eh.retry_error code progress

/-! ### Remote-call outcomes -/

/-- The `CachePolicy` object of a successful `client.get_cache_policy`
response. -/
structure FoundPolicy where
  id : String
  policyName : Option String
  comment : Option String
  etag : Option String
deriving Repr, DecidableEq

/-- Outcome of `client.get_cache_policy` (lambda_function.py line 201):
a response carrying a CachePolicy, a response without one (line 278),
a raised not-found exception (line 283), or any other raised ClientError
(line 287), e.g. an access-denied error. -/
inductive LookupOutcome
  | found (p : FoundPolicy)
  | foundNoPolicy
  | ruleNotFound (msg : String)
  | clientError (code msg : String)
deriving Repr, DecidableEq

/-- Outcome of `client.create_cache_policy` (line 302): success carrying the
created resource identity, one of the named permanent exception classes
(lines 359-397), or any other ClientError (line 398). -/
inductive CreateOutcome
  | ok (ruleArn : String)
  | permExc (excName msg : String)
  | clientError (code msg : String)
deriving Repr, DecidableEq

/-- Outcome of `client.modify_cache_policy` (line 452). -/
inductive UpdateOutcome
  | ok (ruleArn : String)
  | permExc (excName msg : String)
  | clientError (code msg : String)
deriving Repr, DecidableEq

/-- Outcome of `client.delete_cache_policy` (line 529): success, a raised
not-found exception (line 533), or any other ClientError (line 536). -/
inductive DeleteOutcome
  | ok
  | ruleNotFound (msg : String)
  | clientError (code msg : String)
deriving Repr, DecidableEq

/-- The remote environment for one invocation: the outcome each remote call
would have if it is made. -/
structure RemoteEnv where
  lookupOutcome : LookupOutcome
  createOutcome : CreateOutcome
  updateOutcome : UpdateOutcome
  deleteOutcome : DeleteOutcome
deriving Repr, DecidableEq

/-! ### The operation bodies (lambda_function.py lines 193-537) -/

/-- Console link for the resource (lambda_function.py line 540). -/
def gen_cache_policy_link (region cache_policy_id : String) : String :=
  "https://" ++ region ++ ".console.aws.amazon.com/ec2/home?region=" ++ region ++
    "#ListenerRuleDetails:cache_policyArn=" ++ cache_policy_id

/-- Drop pairs whose value is absent (`remove_none_attributes`). -/
def optPairs (l : List (String × Option String)) : List (String × String) :=
  l.filterMap (fun p => p.2.map (fun v => (p.1, v)))

/-- The body of `get_cache_policy` (lambda_function.py lines 194-295).
`prevId` is `prev_state.get("props", {}).get("id")`.  On a successful lookup
the source records logs/state/props/links (lines 206-218) and then, while
building `current_attributes` (line 225), evaluates the undefined name
`reformatted_conditions`, raising a NameError that neither of the two local
`except` clauses (RuleNotFoundException, ClientError) catches. -/
def get_cache_policy_body (region : String) (prevId : Option String)
    (lk : LookupOutcome) (eh : EH) : Step :=
  match prevId with
  | some pid =>
    let eh1 := eh.recordCall (.lookup pid)
    match lk with
    | .found p =>
      let eh2 := eh1.add_log "Got Cache Policy"
      let eh3 := eh2.add_state [("cache_policy_id", p.id), ("region", region)]
      let eh4 := eh3.add_props (optPairs
        [("id", some p.id), ("name", p.policyName), ("description", p.comment),
         ("etag", p.etag)])
      let eh5 := eh4.add_links [("Rule", gen_cache_policy_link region p.id)]
      .error (eh5, .nameError "reformatted_conditions")
    | .foundNoPolicy =>
      .ok ((eh1.add_log "Listener Rule Does Not Exist").add_op "create_cache_policy" .noParam)
    | .ruleNotFound _ =>
      .ok ((eh1.add_log "Listener Rule Does Not Exist").add_op "create_cache_policy" .noParam)
    | .clientError _ _ =>
      .ok ((eh1.add_log "Get Listener Rule Error").retry_error "Get Listener Rule Error" 10)
  | none =>
    .ok ((eh.add_log "Listener Rule Does Not Exist").add_op "create_cache_policy" .noParam)

/-- The body of `create_cache_policy` (lambda_function.py lines 299-399).
On success the source logs and stores the new identity (lines 306-307) and
then, while building `props_to_add` (line 311), evaluates the undefined name
`formatted_conditions_to_conditions`, raising a NameError.  Each named
exception class is logged and converted by `eh.perm_error(str(e), 20)`; any
other ClientError goes to `handle_common_errors(..., progress=20)`. -/
def create_cache_policy_body (region : String) (co : CreateOutcome) (eh : EH) : Step :=
  let eh1 := eh.recordCall .create
  match co with
  | .ok arn =>
    let eh2 := eh1.add_log "Created Listener Rule"
    let eh3 := eh2.add_state [("cache_policy_id", arn), ("region", region)]
    .error (eh3, .nameError "formatted_conditions_to_conditions")
  | .permExc _ msg =>
    .ok ((eh1.add_log "Create Listener Rule Permanent Error").perm_error msg 20)
  | .clientError code msg =>
    .ok (handle_common_errors code msg 20 (eh1.add_log "Error Creating Listener Rule"))

/-- The body of `update_cache_policy` (lambda_function.py lines 448-495).
It reads `eh.state["cache_policy_id"]` (line 450, a KeyError when absent);
on success the source reaches the undefined name
`formatted_conditions_to_conditions` (line 459) and raises a NameError. -/
def update_cache_policy_body (uo : UpdateOutcome) (eh : EH) : Step :=
  match tagsGet eh.state "cache_policy_id" with
  | none => .error (eh, .keyError "cache_policy_id")
  | some cid =>
    let eh1 := eh.recordCall (.update cid)
    match uo with
    | .ok _ =>
      let eh2 := eh1.add_log "Updated Listener Rule"
      .error (eh2, .nameError "formatted_conditions_to_conditions")
    | .permExc _ msg =>
      .ok ((eh1.add_log "Update Listener Rule Permanent Error").perm_error msg 20)
    | .clientError code msg =>
      .ok (handle_common_errors code msg 20 (eh1.add_log "Error Creating Listener Rule"))

/-- The body of `delete_cache_policy` (lambda_function.py lines 526-537).
It reads `eh.state["cache_policy_id"]` (line 527); a raised not-found
exception is only logged and the body returns normally (lines 533-535);
any other ClientError goes to `handle_common_errors(..., progress=80)`. -/
def delete_cache_policy_body (dl : DeleteOutcome) (eh : EH) : Step :=
  match tagsGet eh.state "cache_policy_id" with
  | none => .error (eh, .keyError "cache_policy_id")
  | some cid =>
    let eh1 := eh.recordCall (.delete cid)
    match dl with
    | .ok => .ok (eh1.add_log "Listener Rule Deleted")
    | .ruleNotFound _ => .ok (eh1.add_log "Listener Rule Not Found")
    | .clientError code msg =>
      .ok (handle_common_errors code msg 80 (eh1.add_log "Error Deleting Listener Rule"))

/-! ### The invocation (lambda_function.py lines 57-184) -/

/-- The parts of the orchestration event the core consumes: the requested
operation, the previous state's props, and the pass-back payload when this
invocation is a retry. -/
structure Event where
  op : String
  prevProps : List (String × String)
  passBack : Option PassBack
deriving Repr, DecidableEq

/-- Modelled from the spec: `eh.capture_event` loads the queue, scratch state
and retry data sent back by the orchestrator (docstring lines 64-66, spec 6);
with no pass-back data the handler starts fresh. -/
def capture_event (pb : Option PassBack) : EH :=
  match pb with
  | none => {}
  | some pb => { ops := pb.ops, state := pb.state }

/-- The starting-point declaration (lambda_function.py lines 134-148): a retry
resumes as loaded; an upsert queues `get_cache_policy`; a delete queues
`delete_cache_policy` and seeds the scratch state with
`prev_state["props"]["id"]` (a KeyError when the id is absent). -/
def seed (ev : Event) (eh : EH) : Step :=
  if ev.passBack.isSome then .ok eh
  else if ev.op == "upsert" then .ok (eh.add_op "get_cache_policy" .noParam)
  else if ev.op == "delete" then
    let eh1 := eh.add_op "delete_cache_policy" .noParam
    match tagsGet ev.prevProps "id" with
    | some pid => .ok (eh1.add_state [("cache_policy_id", pid)])
    | none => .error (eh1, .keyError "id")
  else .ok eh

/-- The body of `lambda_handler`'s try block (lambda_function.py lines 57-176):
capture the event, declare the starting point, then run the four
`@ext`-guarded operations in their textual order. -/
def run_body (ev : Event) (region : String) (env : RemoteEnv) : Step :=
  match seed ev (capture_event ev.passBack) with
  | .error x => .error x
  | .ok eh1 =>
    match runExt "get_cache_policy"
        (get_cache_policy_body region (tagsGet ev.prevProps "id") env.lookupOutcome) eh1 with
    | .error x => .error x
    | .ok eh2 =>
      match runExt "delete_cache_policy" (delete_cache_policy_body env.deleteOutcome) eh2 with
      | .error x => .error x
      | .ok eh3 =>
        match runExt "create_cache_policy" (create_cache_policy_body region env.createOutcome) eh3 with
        | .error x => .error x
        | .ok eh4 => runExt "update_cache_policy" (update_cache_policy_body env.updateOutcome) eh4

/-- The `except Exception` branch of `lambda_handler` (lambda_function.py
lines 179-184): log the failure and fix the response to progress 0 with the
exception message as the error code. -/
def unexpected_handler (eh : EH) (e : PyErr) : EH :=
  (eh.add_log "Unexpected Error").declare_return 0 e.str

/-- `lambda_handler` (lambda_function.py lines 57-184): run the try block; an
escaped exception is caught at the top level and converted, and either way
the invocation returns `eh.finish()`. -/
def lambda_handler (ev : Event) (region : String) (env : RemoteEnv) : Response :=
  match run_body ev region env with
  | .ok eh => eh.finish
  | .error (eh, e) => (unexpected_handler eh e).finish

/-- The handler state carried inside a `Step`, whether or not an exception
escaped. -/
def stepEH : Step → EH
  | .ok eh => eh
  | .error x => x.1

/-- The exception carried inside a `Step`, if one escaped. -/
def stepErr : Step → Option PyErr
  | .ok _ => none
  | .error x => some x.2

/-! ### Claims about the invocation pipeline -/

/-- Claim C1 (amended): for an upsert invocation where no prior identity
exists, or the remote lookup raises the not-found exception, or the lookup
response carries no CachePolicy, the diff phase queues exactly one `create`
operation and no `update` operation, and raises no exception.  (As stated the
claim also covered an access-denied lookup; see the counterexample.) -/
theorem claim_C1_create_on_absent (region : String) (prevProps : List (String × String))
    (lk : LookupOutcome)
    (h : tagsGet prevProps "id" = none ∨ (∃ m, lk = .ruleNotFound m) ∨ lk = .foundNoPolicy) :
    seed ⟨"upsert", prevProps, none⟩ (capture_event none) =
      .ok { ops := [("get_cache_policy", OpParam.noParam)] } ∧
    ∃ eh2, runExt "get_cache_policy"
        (get_cache_policy_body region (tagsGet prevProps "id") lk)
        { ops := [("get_cache_policy", OpParam.noParam)] } = .ok eh2
      ∧ eh2.ops.countP (fun o => o.1 == "create_cache_policy") = 1
      ∧ eh2.ops.countP (fun o => o.1 == "update_cache_policy") = 0 := by
  refine ⟨rfl, ?_⟩
  rcases h with h1 | ⟨m, h2⟩ | h3
  · rw [h1]
    exact ⟨_, rfl, rfl, rfl⟩
  · subst h2
    cases hpid : tagsGet prevProps "id" with
    | none => exact ⟨_, rfl, rfl, rfl⟩
    | some pid => exact ⟨_, rfl, rfl, rfl⟩
  · subst h3
    cases hpid : tagsGet prevProps "id" with
    | none => exact ⟨_, rfl, rfl, rfl⟩
    | some pid => exact ⟨_, rfl, rfl, rfl⟩

theorem claim_C1_witness :
    ∃ eh2, runExt "get_cache_policy"
        (get_cache_policy_body "us-east-1" (tagsGet ([] : List (String × String)) "id")
          LookupOutcome.foundNoPolicy)
        { ops := [("get_cache_policy", OpParam.noParam)] } = .ok eh2
      ∧ eh2.ops.countP (fun o => o.1 == "create_cache_policy") = 1
      ∧ eh2.ops.countP (fun o => o.1 == "update_cache_policy") = 0 :=
  (claim_C1_create_on_absent "us-east-1" [] .foundNoPolicy (Or.inl rfl)).2

/-- Claim C1, counterexample: an upsert with a prior identity whose lookup is
denied (`AccessDenied`, a generic ClientError, not the not-found exception
class) queues no `create` operation at all; the code schedules a transient
retry of the lookup instead (lambda_function.py lines 287-291). -/
theorem claim_C1_denied_cex :
    (stepEH (run_body ⟨"upsert", [("id", "POLICY1")], none⟩ "us-east-1"
        ⟨.clientError "AccessDenied" "not authorized", .ok "A", .ok "A", .ok⟩)).ops.countP
      (fun o => o.1 == "create_cache_policy") = 0 ∧
    (stepEH (run_body ⟨"upsert", [("id", "POLICY1")], none⟩ "us-east-1"
        ⟨.clientError "AccessDenied" "not authorized", .ok "A", .ok "A", .ok⟩)).retries =
      some ("Get Listener Rule Error", 10) ∧
    stepErr (run_body ⟨"upsert", [("id", "POLICY1")], none⟩ "us-east-1"
        ⟨.clientError "AccessDenied" "not authorized", .ok "A", .ok "A", .ok⟩) = none := by
  decide

/-- Claim C2 (code bug): at a failing input — an upsert with a prior identity
whose lookup succeeds and returns a cache policy — the code never reaches the
attribute comparison at lambda_function.py lines 232-235: building
`current_attributes` evaluates the undefined name `reformatted_conditions`
(line 225) and the invocation terminates with a NameError converted by the
top-level handler; no `update` operation is ever queued, even though the
observed configuration here equals the desired one. -/
theorem claim_C2_diff_unreachable :
    stepErr (run_body ⟨"upsert", [("id", "POLICY1")], none⟩ "us-east-1"
        ⟨.found ⟨"POLICY1", some "policyname", some "description", some "ETAG1"⟩,
          .ok "A", .ok "A", .ok⟩) =
      some (.nameError "reformatted_conditions") ∧
    (stepEH (run_body ⟨"upsert", [("id", "POLICY1")], none⟩ "us-east-1"
        ⟨.found ⟨"POLICY1", some "policyname", some "description", some "ETAG1"⟩,
          .ok "A", .ok "A", .ok⟩)).ops.countP
      (fun o => o.1 == "update_cache_policy") = 0 ∧
    (lambda_handler ⟨"upsert", [("id", "POLICY1")], none⟩ "us-east-1"
        ⟨.found ⟨"POLICY1", some "policyname", some "description", some "ETAG1"⟩,
          .ok "A", .ok "A", .ok⟩).errorCode =
      some (PyErr.str (.nameError "reformatted_conditions")) := by
  decide

/-- Claim C10: for every upsert invocation with a prior identity whose lookup
succeeds in returning a cache policy, the body raises
`NameError(reformatted_conditions)` uncaught by the local handlers, no
update/tag operation is ever queued on that path, and the invocation
terminates through the top-level unexpected-error handler with the exception
message as the error code, progress 0 and no retry pass-back. -/
theorem claim_C10_nameerror_on_found (region : String) (prevProps : List (String × String))
    (pid : String) (p : FoundPolicy) (env : RemoteEnv)
    (hid : tagsGet prevProps "id" = some pid)
    (hlk : env.lookupOutcome = .found p) :
    stepErr (run_body ⟨"upsert", prevProps, none⟩ region env) =
      some (.nameError "reformatted_conditions") ∧
    (stepEH (run_body ⟨"upsert", prevProps, none⟩ region env)).ops.countP
      (fun o => o.1 == "update_cache_policy" || o.1 == "remove_tags" || o.1 == "set_tags") = 0 ∧
    (lambda_handler ⟨"upsert", prevProps, none⟩ region env).errorCode =
      some (PyErr.str (.nameError "reformatted_conditions")) ∧
    (lambda_handler ⟨"upsert", prevProps, none⟩ region env).progress = 0 ∧
    (lambda_handler ⟨"upsert", prevProps, none⟩ region env).passBack = none := by
  obtain ⟨lo, co, uo, dl⟩ := env
  simp only at hlk
  subst hlk
  simp only [run_body, seed, capture_event, lambda_handler, runExt, get_cache_policy_body, hid]
  exact ⟨rfl, rfl, rfl, rfl, rfl⟩

theorem claim_C10_witness :
    stepErr (run_body ⟨"upsert", [("id", "P1")], none⟩ "us-east-1"
        ⟨.found ⟨"P1", none, none, none⟩, .ok "A", .ok "A", .ok⟩) =
      some (.nameError "reformatted_conditions") :=
  (claim_C10_nameerror_on_found "us-east-1" [("id", "P1")] "P1" ⟨"P1", none, none, none⟩
    ⟨.found ⟨"P1", none, none, none⟩, .ok "A", .ok "A", .ok⟩ rfl rfl).1

/-- Claim C4: a delete invocation that is not a retry queues exactly one
`delete` operation, seeded with the identity taken directly from the props of
the previous state; no lookup or diff operation is queued, and the only remote
call made and the only operation body entered are the delete itself. -/
theorem claim_C4_delete_skips_diff (region pid : String) (prevProps : List (String × String))
    (env : RemoteEnv) (hid : tagsGet prevProps "id" = some pid) :
    seed ⟨"delete", prevProps, none⟩ (capture_event none) =
      .ok { ops := [("delete_cache_policy", OpParam.noParam)],
            state := [("cache_policy_id", pid)] } ∧
    ∃ eh2, run_body ⟨"delete", prevProps, none⟩ region env = .ok eh2
      ∧ eh2.calls = [RemoteCall.delete pid]
      ∧ eh2.trace = ["delete_cache_policy"] := by
  obtain ⟨lo, co, uo, dl⟩ := env
  constructor
  · simp only [seed, capture_event, hid]
    rfl
  · simp only [run_body, seed, capture_event, runExt, delete_cache_policy_body, hid]
    cases dl with
    | ok => exact ⟨_, rfl, rfl, rfl⟩
    | ruleNotFound m => exact ⟨_, rfl, rfl, rfl⟩
    | clientError code msg =>
      simp only [handle_common_errors]
      cases hcode : isPermanentCommonCode code
      · exact ⟨_, rfl, rfl, rfl⟩
      · exact ⟨_, rfl, rfl, rfl⟩

theorem claim_C4_witness :
    ∃ eh2, run_body ⟨"delete", [("id", "P1")], none⟩ "us-east-1"
        ⟨.foundNoPolicy, .ok "A", .ok "A", .ok⟩ = .ok eh2
      ∧ eh2.calls = [RemoteCall.delete "P1"]
      ∧ eh2.trace = ["delete_cache_policy"] :=
  (claim_C4_delete_skips_diff "us-east-1" "P1" [("id", "P1")]
    ⟨.foundNoPolicy, .ok "A", .ok "A", .ok⟩ rfl).2

/-- Claim C5: when the queued delete executes and the remote delete call
raises the not-found exception, the invocation's response is identical to the
response of a successful delete: progress 100, no error code, no retry
pass-back. -/
theorem claim_C5_delete_notfound_is_success (region pid m : String)
    (prevProps : List (String × String)) (lo : LookupOutcome) (co : CreateOutcome)
    (uo : UpdateOutcome) (hid : tagsGet prevProps "id" = some pid) :
    lambda_handler ⟨"delete", prevProps, none⟩ region ⟨lo, co, uo, .ruleNotFound m⟩ =
      lambda_handler ⟨"delete", prevProps, none⟩ region ⟨lo, co, uo, .ok⟩ ∧
    (lambda_handler ⟨"delete", prevProps, none⟩ region ⟨lo, co, uo, .ruleNotFound m⟩).progress = 100 ∧
    (lambda_handler ⟨"delete", prevProps, none⟩ region ⟨lo, co, uo, .ruleNotFound m⟩).errorCode = none ∧
    (lambda_handler ⟨"delete", prevProps, none⟩ region ⟨lo, co, uo, .ruleNotFound m⟩).passBack = none := by
  simp only [lambda_handler, run_body, seed, capture_event, runExt, delete_cache_policy_body, hid]
  exact ⟨rfl, rfl, rfl, rfl⟩

theorem claim_C5_witness :
    (lambda_handler ⟨"delete", [("id", "P1")], none⟩ "us-east-1"
        ⟨.foundNoPolicy, .ok "A", .ok "A", .ruleNotFound "gone"⟩).progress = 100 :=
  (claim_C5_delete_notfound_is_success "us-east-1" "P1" "gone" [("id", "P1")]
    .foundNoPolicy (.ok "A") (.ok "A") rfl).2.1

/-- Claim C7: a transient lookup failure (a generic ClientError during
`get_cache_policy`) leaves the queue unchanged with the failing operation
still at its head inside the pass-back payload, reports partial progress with
no permanent error, and a re-invocation carrying that payload skips the
seeding entirely (the queue and scratch state come verbatim from the payload)
and resumes the same operation, without any diff decision being re-made. -/
theorem claim_C7_transient_preserves_queue (region pid code msg code2 msg2 : String)
    (prevProps : List (String × String)) (env env2 : RemoteEnv)
    (hid : tagsGet prevProps "id" = some pid)
    (hlk : env.lookupOutcome = .clientError code msg)
    (hlk2 : env2.lookupOutcome = .clientError code2 msg2) :
    (lambda_handler ⟨"upsert", prevProps, none⟩ region env).passBack =
      some ⟨[("get_cache_policy", OpParam.noParam)], []⟩ ∧
    (lambda_handler ⟨"upsert", prevProps, none⟩ region env).errorCode = none ∧
    (lambda_handler ⟨"upsert", prevProps, none⟩ region env).progress = 10 ∧
    seed ⟨"upsert", prevProps, some ⟨[("get_cache_policy", OpParam.noParam)], []⟩⟩
        (capture_event (some ⟨[("get_cache_policy", OpParam.noParam)], []⟩)) =
      .ok { ops := [("get_cache_policy", OpParam.noParam)] } ∧
    (∃ eh2, run_body ⟨"upsert", prevProps, some ⟨[("get_cache_policy", OpParam.noParam)], []⟩⟩
        region env2 = .ok eh2
      ∧ eh2.trace = ["get_cache_policy"]
      ∧ eh2.retries = some ("Get Listener Rule Error", 10)
      ∧ eh2.ops = [("get_cache_policy", OpParam.noParam)]) := by
  obtain ⟨lo, co, uo, dl⟩ := env
  obtain ⟨lo2, co2, uo2, dl2⟩ := env2
  simp only at hlk hlk2
  subst hlk
  subst hlk2
  simp only [lambda_handler, run_body, seed, capture_event, runExt, get_cache_policy_body, hid]
  refine ⟨?_, ?_, ?_, ?_, ⟨_, rfl, rfl, rfl, rfl⟩⟩ <;> trivial

theorem claim_C7_witness :
    (lambda_handler ⟨"upsert", [("id", "P1")], none⟩ "us-east-1"
        ⟨.clientError "Throttling" "rate exceeded", .ok "A", .ok "A", .ok⟩).passBack =
      some ⟨[("get_cache_policy", OpParam.noParam)], []⟩ :=
  (claim_C7_transient_preserves_queue "us-east-1" "P1" "Throttling" "rate exceeded"
    "Throttling" "rate exceeded" [("id", "P1")]
    ⟨.clientError "Throttling" "rate exceeded", .ok "A", .ok "A", .ok⟩
    ⟨.clientError "Throttling" "rate exceeded", .ok "A", .ok "A", .ok⟩ rfl rfl rfl).1

/-- Claim C8: a permanent error during `create_cache_policy` (one of the named
exception classes, converted by `eh.perm_error(str(e), 20)`) halts the queue:
only the get and create bodies ever run, the update body never executes, and
the invocation reports the provider's message verbatim with the fixed partial
progress 20 and no retry pass-back. -/
theorem claim_C8_permanent_halts_queue (region excName msg : String)
    (prevProps : List (String × String)) (env : RemoteEnv)
    (hid : tagsGet prevProps "id" = none)
    (hco : env.createOutcome = .permExc excName msg) :
    (∃ eh2, run_body ⟨"upsert", prevProps, none⟩ region env = .ok eh2
      ∧ eh2.fatal = some (msg, 20)
      ∧ eh2.trace = ["get_cache_policy", "create_cache_policy"]) ∧
    (lambda_handler ⟨"upsert", prevProps, none⟩ region env).errorCode = some msg ∧
    (lambda_handler ⟨"upsert", prevProps, none⟩ region env).progress = 20 ∧
    (lambda_handler ⟨"upsert", prevProps, none⟩ region env).passBack = none := by
  obtain ⟨lo, co, uo, dl⟩ := env
  simp only at hco
  subst hco
  simp only [lambda_handler, run_body, seed, capture_event, runExt, get_cache_policy_body,
    create_cache_policy_body, hid]
  exact ⟨⟨_, rfl, rfl, rfl⟩, rfl, rfl, rfl⟩

theorem claim_C8_witness :
    (lambda_handler ⟨"upsert", [], none⟩ "us-east-1"
        ⟨.foundNoPolicy, .permExc "TooManyRulesException" "quota reached", .ok "A", .ok⟩).errorCode =
      some "quota reached" :=
  (claim_C8_permanent_halts_queue "us-east-1" "TooManyRulesException" "quota reached" []
    ⟨.foundNoPolicy, .permExc "TooManyRulesException" "quota reached", .ok "A", .ok⟩
    rfl rfl).2.1

/-- Claim C9: every exception escaping the try block is caught at the
top-level handler boundary, an "Unexpected Error" log entry is appended, and
the invocation returns a response (never propagates the exception) carrying
the exception message as the error code, progress 0 and no retry pass-back. -/
theorem claim_C9_unexpected_caught (ev : Event) (region : String) (env : RemoteEnv)
    (eh : EH) (e : PyErr) (h : run_body ev region env = .error (eh, e)) :
    lambda_handler ev region env = (unexpected_handler eh e).finish ∧
    (unexpected_handler eh e).logs = eh.logs ++ ["Unexpected Error"] ∧
    (lambda_handler ev region env).errorCode = some e.str ∧
    (lambda_handler ev region env).progress = 0 ∧
    (lambda_handler ev region env).passBack = none := by
  simp only [lambda_handler, h, unexpected_handler, EH.declare_return, EH.add_log, EH.finish]
  refine ⟨?_, ?_, ?_, ?_, ?_⟩ <;> trivial

theorem claim_C9_witness :
    (lambda_handler ⟨"upsert", [("id", "P9")], none⟩ "us-east-1"
        ⟨.found ⟨"P9", none, none, none⟩, .ok "A", .ok "A", .ok⟩).errorCode =
      some (PyErr.str (.nameError "reformatted_conditions")) :=
  (claim_C9_unexpected_caught ⟨"upsert", [("id", "P9")], none⟩ "us-east-1"
    ⟨.found ⟨"P9", none, none, none⟩, .ok "A", .ok "A", .ok⟩
    (stepEH (run_body ⟨"upsert", [("id", "P9")], none⟩ "us-east-1"
      ⟨.found ⟨"P9", none, none, none⟩, .ok "A", .ok "A", .ok⟩))
    (.nameError "reformatted_conditions") (by rfl)).2.2.1

end CachePolicy
